import Mathlib

/-!
Shallow embedding of the domain classifier in `src/engine/assessor.py`
(`SCORING_MATRIX`, `CATEGORY_NAMES`, `get_cyber_domain`) together with
theorems settling the specification claims about it.

Modelling conventions:
* Python strings are modelled as Lean `String`; `str.upper()` and
  `str.strip()` are modelled on the ASCII fragment (the letters and
  whitespace this program manipulates), using `Char.toUpper` and the six
  ASCII whitespace characters.
* Python `float` arithmetic in the confidence computation is modelled by
  exact rationals (`ℚ`).  Every reachable confidence value is an integer
  between 50 and 100, and the double-precision error of
  `score_difference / 50 * 50` is far below the 0.05 threshold that
  `round(·, 1)` can see, so the rational model returns exactly the value
  the Python code returns.
* `round(x, 1)` (Python, half-to-even) is modelled with `round` on ℚ;
  the two conventions agree whenever `x * 10` is an integer, which holds
  for every confidence value this program produces.
* A raised `ValueError` is modelled as `Except.error` carrying the data
  interpolated into the message (expected/actual count, or the
  normalized token and 1-indexed question number).
-/

/-- The five categories, in the declaration (dict-insertion) order of the
`scores` dict in `get_cyber_domain`: Red Team, Blue Team, AppSec, GRC,
Cloud Security. -/
inductive Category where
  | redTeam
  | blueTeam
  | appSec
  | grc
  | cloudSecurity
deriving DecidableEq, Repr, Fintype

/-- The four answer letters A, B, C, D. -/
inductive Choice where
  | A
  | B
  | C
  | D
deriving DecidableEq, Repr, Fintype

/-- The categories in declaration order (the insertion order of every
category dict in `assessor.py`). -/
def CATEGORIES : List Category :=
  [.redTeam, .blueTeam, .appSec, .grc, .cloudSecurity]

/-- Position of a category in the fixed declaration order. -/
def catIdx : Category → Nat
  | .redTeam => 0
  | .blueTeam => 1
  | .appSec => 2
  | .grc => 3
  | .cloudSecurity => 4

/-- One row of the scoring matrix: the five per-category point values, in
the declaration order Red Team, Blue Team, AppSec, GRC, Cloud Security. -/
def categoryRow (redTeam blueTeam appSec grc cloudSecurity : ℤ) : Category → ℤ
  | .redTeam => redTeam
  | .blueTeam => blueTeam
  | .appSec => appSec
  | .grc => grc
  | .cloudSecurity => cloudSecurity

/-- `SCORING_MATRIX` of `assessor.py`: question number → answer option →
category scores.  The Python dict is keyed by the integers 1..10, so the
model returns `none` off that range. -/
def SCORING_MATRIX (q : Nat) : Option (Choice → Category → ℤ) :=
  match q with
  | 1 => some fun
    | .A => categoryRow 2 3 5 0 4
    | .B => categoryRow 4 4 4 1 3
    | .C => categoryRow 3 3 2 3 2
    | .D => categoryRow 1 2 0 5 1
  | 2 => some fun
    | .A => categoryRow 1 2 5 1 4
    | .B => categoryRow 5 2 4 1 2
    | .C => categoryRow 2 3 2 3 3
    | .D => categoryRow 0 1 1 5 1
  | 3 => some fun
    | .A => categoryRow 4 3 3 1 2
    | .B => categoryRow 2 4 2 3 3
    | .C => categoryRow 0 1 1 5 1
    | .D => categoryRow 3 3 4 2 4
  | 4 => some fun
    | .A => categoryRow 5 2 2 1 2
    | .B => categoryRow 1 5 3 2 4
    | .C => categoryRow 0 1 1 5 1
    | .D => categoryRow 2 3 4 3 3
  | 5 => some fun
    | .A => categoryRow 5 1 3 0 2
    | .B => categoryRow 1 5 2 2 4
    | .C => categoryRow 3 3 4 2 3
    | .D => categoryRow 0 2 1 5 1
  | 6 => some fun
    | .A => categoryRow 5 1 3 0 2
    | .B => categoryRow 1 5 2 2 4
    | .C => categoryRow 3 3 4 2 3
    | .D => categoryRow 0 2 1 5 1
  | 7 => some fun
    | .A => categoryRow 5 2 3 0 1
    | .B => categoryRow 1 5 1 1 4
    | .C => categoryRow 2 2 5 1 2
    | .D => categoryRow 0 1 1 5 1
  | 8 => some fun
    | .A => categoryRow 5 2 3 0 2
    | .B => categoryRow 1 5 1 1 4
    | .C => categoryRow 2 2 5 1 2
    | .D => categoryRow 0 1 1 5 1
  | 9 => some fun
    | .A => categoryRow 5 1 2 0 1
    | .B => categoryRow 1 5 1 1 4
    | .C => categoryRow 2 2 5 1 2
    | .D => categoryRow 0 1 1 5 1
  | 10 => some fun
    | .A => categoryRow 5 1 2 0 1
    | .B => categoryRow 1 5 1 1 3
    | .C => categoryRow 2 2 5 1 2
    | .D => categoryRow 0 1 1 5 1
  | _ => none

/-- `CATEGORY_NAMES` of `assessor.py`: category display names. -/
def CATEGORY_NAMES : Category → String
  | .redTeam => "Red Team (Offensive)"
  | .blueTeam => "Blue Team (Defensive)"
  | .appSec => "Application Security"
  | .grc => "GRC (Governance, Risk & Compliance)"
  | .cloudSecurity => "Cloud Security"

/-- ASCII whitespace stripped by Python `str.strip()` (space, tab,
newline, carriage return, vertical tab, form feed). -/
def pySpace (c : Char) : Bool :=
  c == ' ' || c == '\t' || c == '\n' || c == '\r' || c == '\x0b' || c == '\x0c'

/-- Python `str.upper()` on the ASCII fragment. -/
def pyUpper (s : String) : String :=
  ⟨s.data.map Char.toUpper⟩

/-- Python `str.strip()` on the ASCII fragment: drop leading and trailing
whitespace. -/
def pyStrip (s : String) : String :=
  ⟨(((s.data.dropWhile pySpace).reverse).dropWhile pySpace).reverse⟩

/-- The normalization `answer.upper().strip()` applied to each response
in `get_cyber_domain`. -/
def pyNormalize (s : String) : String :=
  pyStrip (pyUpper s)

/-- Membership test `answer in ["A", "B", "C", "D"]`, returning the
letter when the (already normalized) answer is valid. -/
def choiceOf? (s : String) : Option Choice :=
  if s = "A" then some .A
  else if s = "B" then some .B
  else if s = "C" then some .C
  else if s = "D" then some .D
  else none

/-- Whether a raw response survives validation after normalization. -/
def validChoice (s : String) : Bool :=
  (choiceOf? (pyNormalize s)).isSome

/-- The `ValueError`s raised by `get_cyber_domain`, as structured data:
the wrong-length message carries the expected and actual counts, the
invalid-answer message carries the normalized token and the 1-indexed
question number. -/
inductive AssessError where
  | wrongLength (expected got : Nat)
  | invalidAnswer (answer : String) (question : Nat)
deriving DecidableEq, Repr

/-- The result dict of `get_cyber_domain`: primary domain, its display
name, the full score dict (five keys in insertion order) and the rounded
confidence. -/
structure AssessResult where
  domain : Category
  full_name : String
  scores : List (Category × ℤ)
  confidence : ℚ
deriving DecidableEq, Repr

/-- Score accumulation for one answer: the guarded lookup
`if question_num in SCORING_MATRIX and answer in SCORING_MATRIX[question_num]`
followed by `scores[category] += points` over the row's five entries. -/
def applyAnswer (questionNum : Nat) (ch : Choice) (scores : Category → ℤ) :
    Category → ℤ :=
  match SCORING_MATRIX questionNum with
  | some answerScores => fun c => scores c + answerScores ch c
  | none => scores

/-- The response-processing loop of `get_cyber_domain`
(`for question_num, answer in enumerate(responses, start=1)`): normalize
each answer, validate it, and accumulate its row of the scoring matrix;
the first invalid answer aborts with the normalized token and the
1-indexed question number. -/
def processResponses :
    List String → Nat → (Category → ℤ) → Except AssessError (Category → ℤ)
  | [], _, scores => .ok scores
  | ans :: rest, questionNum, scores =>
    let answer := pyNormalize ans
    match choiceOf? answer with
    | none => .error (.invalidAnswer answer questionNum)
    | some ch => processResponses rest (questionNum + 1) (applyAnswer questionNum ch scores)

/-- Python `max(scores, key=scores.get)`: iterate the dict keys in
insertion order starting from the first, replacing the current best only
on a strictly larger score, so the first key attaining the maximum wins. -/
def pyMaxKey (scores : Category → ℤ) : Category :=
  [Category.blueTeam, Category.appSec, Category.grc, Category.cloudSecurity].foldl
    (fun best c => if scores c > scores best then c else best) Category.redTeam

/-- Python `round(x, 1)`.  Python rounds halves to even while `round` on
ℚ rounds halves up; the two agree whenever `x * 10` is an integer, which
is the case for every confidence value this program produces. -/
def pyRound1 (x : ℚ) : ℚ :=
  (round (x * 10) : ℤ) / 10

/-- The tail of `get_cyber_domain` after the scoring loop: pick the
primary domain, sort the five score values descending, derive the
confidence from the gap between the two largest, and assemble the result
dict. -/
def buildResult (scores : Category → ℤ) : AssessResult :=
  let primaryDomain := pyMaxKey scores
  let sortedScores := List.insertionSort (· ≥ ·) (CATEGORIES.map scores)
  let confidence : ℚ :=
    if 1 < sortedScores.length then
      let scoreDifference : ℤ := sortedScores.getD 0 0 - sortedScores.getD 1 0
      min 100 (50 + ((scoreDifference : ℚ) / 50 * 50))
    else 100
  { domain := primaryDomain
    full_name := CATEGORY_NAMES primaryDomain
    scores := CATEGORIES.map fun c => (c, scores c)
    confidence := pyRound1 confidence }

/-- `get_cyber_domain` of `assessor.py`: validate the length, run the
scoring loop (which validates each answer), and build the result. -/
def get_cyber_domain (responses : List String) : Except AssessError AssessResult :=
  if responses.length ≠ 10 then
    .error (.wrongLength 10 responses.length)
  else
    match processResponses responses 1 (fun _ => 0) with
    | .error e => .error e
    | .ok scores => .ok (buildResult scores)

/-- Score of a category in a result's score dict (0 if absent; every
result produced by the program carries all five keys). -/
def scoreAt (r : AssessResult) (c : Category) : ℤ :=
  ((r.scores.find? fun p => p.1 = c).map Prod.snd).getD 0

/-- The confidence formula exactly as the specification words it, for the
refinement comparison with the implementation: sort the five scores
descending, take the gap between the first and second value, map through
min(100, 50 + gap divided by 50 times 50), round to one decimal place. -/
def specConfidence (scoreValues : List ℤ) : ℚ :=
  let sortedDesc := List.insertionSort (· ≥ ·) scoreValues
  let gap : ℤ := sortedDesc.getD 0 0 - sortedDesc.getD 1 0
  pyRound1 (min 100 (50 + ((gap : ℚ) / 50 * 50)))

instance {ε α : Type} [DecidableEq ε] [DecidableEq α] : DecidableEq (Except ε α) := fun a b =>
  match a, b with
  | .error e₁, .error e₂ => decidable_of_iff (e₁ = e₂) (by simp)
  | .error _, .ok _ => isFalse (by simp)
  | .ok _, .error _ => isFalse (by simp)
  | .ok a₁, .ok a₂ => decidable_of_iff (a₁ = a₂) (by simp)

/-- A response sequence on which Red Team and AppSec tie for the maximum
accumulated score (both 31). -/
def tieInput : List String :=
  ["A", "A", "A", "A", "A", "A", "A", "B", "B", "C"]

/-- The result of `get_cyber_domain tieInput`: the tie between Red Team
and AppSec resolves to Red Team, the first of the two in declaration
order, and the zero gap gives confidence 50. -/
def tieRes : AssessResult :=
  { domain := Category.redTeam
    full_name := "Red Team (Offensive)"
    scores := [(Category.redTeam, 31), (Category.blueTeam, 26), (Category.appSec, 31),
               (Category.grc, 6), (Category.cloudSecurity, 27)]
    confidence := 50 }

/-- The result of `get_cyber_domain` on ten times the answer B. -/
def resB : AssessResult :=
  { domain := Category.blueTeam
    full_name := "Blue Team (Defensive)"
    scores := [(Category.redTeam, 18), (Category.blueTeam, 45), (Category.appSec, 21),
               (Category.grc, 15), (Category.cloudSecurity, 35)]
    confidence := 60 }

/-- The result of `get_cyber_domain` on ten times the answer C. -/
def resC : AssessResult :=
  { domain := Category.appSec
    full_name := "Application Security"
    scores := [(Category.redTeam, 19), (Category.blueTeam, 22), (Category.appSec, 34),
               (Category.grc, 24), (Category.cloudSecurity, 21)]
    confidence := 60 }

/-- The result of `get_cyber_domain` on ten times the answer D: GRC wins
with 45 points (not 50: questions 3 and 4 give GRC only 2 and 3 points
for D), and the 45 - 17 = 28 gap gives confidence 78, not 100. -/
def resD : AssessResult :=
  { domain := Category.grc
    full_name := "GRC (Governance, Risk & Compliance)"
    scores := [(Category.redTeam, 6), (Category.blueTeam, 17), (Category.appSec, 15),
               (Category.grc, 45), (Category.cloudSecurity, 15)]
    confidence := 78 }

/-- A mixed-case response sequence with surrounding whitespace, used to
exercise the normalization path. -/
def mixedInput : List String :=
  [" a", "B", "c ", "D", "a", "b", "c", "d", "a", "b"]

/-- A response sequence whose fifth element is the invalid letter E. -/
def invalidAtFive : List String :=
  ["A", "B", "C", "D", "E", "A", "B", "C", "D", "A"]

/-- Inversion of a successful call: the input had length 10, the scoring
loop succeeded, and the result is `buildResult` of the accumulated
scores. -/
theorem gcd_ok_inv {responses : List String} {r : AssessResult}
    (h : get_cyber_domain responses = Except.ok r) :
    responses.length = 10 ∧
      ∃ f, processResponses responses 1 (fun _ => 0) = Except.ok f ∧ r = buildResult f := by
  unfold get_cyber_domain at h
  split at h
  · exact absurd h (by simp)
  · next hlen =>
    refine ⟨by omega, ?_⟩
    split at h
    · exact absurd h (by simp)
    · next f hf => exact ⟨f, hf, (Except.ok.injEq _ _ ▸ h).symm⟩

/-- A wrong-length input fails with the length error before any letter is
inspected. -/
theorem gcd_length_error (responses : List String) (h : responses.length ≠ 10) :
    get_cyber_domain responses = Except.error (.wrongLength 10 responses.length) := by
  unfold get_cyber_domain
  rw [if_pos h]

/-- If the scoring loop succeeds, every response was a valid choice. -/
theorem process_ok_all_valid :
    ∀ {l : List String} {q : Nat} {f g}, processResponses l q f = Except.ok g →
      ∀ s ∈ l, validChoice s = true := by
  intro l
  induction l with
  | nil => intro q f g h s hs; simp at hs
  | cons a rest ih =>
    intro q f g h s hs
    unfold processResponses at h
    simp only at h
    rcases hmatch : choiceOf? (pyNormalize a) with _ | ch
    · rw [hmatch] at h; simp at h
    · simp only [hmatch] at h
      rcases List.mem_cons.mp hs with rfl | hs'
      · simp [validChoice, hmatch]
      · exact ih h s hs'

/-- If the scoring loop fails, the error is the invalid-answer error for
the first invalid response, carrying its normalized token and its
1-indexed question number. -/
theorem process_error_inv :
    ∀ {l : List String} {q : Nat} {f e}, processResponses l q f = Except.error e →
      ∃ i s, l.get? i = some s ∧ validChoice s = false ∧
        e = AssessError.invalidAnswer (pyNormalize s) (q + i) ∧
        ∀ k, k < i → ∀ s', l.get? k = some s' → validChoice s' = true := by
  intro l
  induction l with
  | nil => intro q f e h; simp [processResponses] at h
  | cons a rest ih =>
    intro q f e h
    unfold processResponses at h
    simp only at h
    rcases hmatch : choiceOf? (pyNormalize a) with _ | ch
    · rw [hmatch] at h
      simp only [Except.error.injEq] at h
      refine ⟨0, a, rfl, by simp [validChoice, hmatch], ?_, ?_⟩
      · rw [Nat.add_zero]; exact h.symm
      · exact fun k hk => absurd hk (Nat.not_lt_zero k)
    · simp only [hmatch] at h
      obtain ⟨i, s, hget, hval, he, hbefore⟩ := ih h
      refine ⟨i + 1, s, hget, hval, by rw [he]; congr 1; omega, ?_⟩
      intro k hk s' hs'
      match k with
      | 0 =>
        simp only [List.get?] at hs'
        cases hs'
        simp [validChoice, hmatch]
      | k' + 1 =>
        exact hbefore k' (by omega) s' hs'

/-- The scoring loop succeeds on a list of valid responses. -/
theorem process_ok_of_valid :
    ∀ (l : List String) (q : Nat) (f), (∀ s ∈ l, validChoice s = true) →
      ∃ g, processResponses l q f = Except.ok g := by
  intro l
  induction l with
  | nil => intro q f _; exact ⟨f, rfl⟩
  | cons a rest ih =>
    intro q f hall
    have ha : validChoice a = true := hall a (List.mem_cons_self a rest)
    unfold validChoice at ha
    rcases hmatch : choiceOf? (pyNormalize a) with _ | ch
    · rw [hmatch] at ha; simp at ha
    · obtain ⟨g, hg⟩ := ih (q + 1) (applyAnswer q ch f)
        (fun s hs => hall s (List.mem_cons_of_mem a hs))
      exact ⟨g, by unfold processResponses; simp only [hmatch]; exact hg⟩

/-- The score dict of a built result evaluates pointwise to the
accumulated score function. -/
theorem scoreAt_buildResult (f : Category → ℤ) (c : Category) :
    scoreAt (buildResult f) c = f c := by
  cases c <;> rfl

/-- `max(scores, key=scores.get)` picks a maximizer of the score
function. -/
theorem pyMaxKey_le (f : Category → ℤ) (c : Category) : f c ≤ f (pyMaxKey f) := by
  cases c <;> (simp only [pyMaxKey, List.foldl]; split_ifs <;> omega)

/-- `max(scores, key=scores.get)` picks the maximizer that comes first in
the declaration order: any category attaining the maximum comes no
earlier. -/
theorem pyMaxKey_first (f : Category → ℤ) (c : Category) (hmax : ∀ c', f c' ≤ f c) :
    catIdx (pyMaxKey f) ≤ catIdx c := by
  have h1 := hmax .redTeam
  have h2 := hmax .blueTeam
  have h3 := hmax .appSec
  have h4 := hmax .grc
  have h5 := hmax .cloudSecurity
  cases c <;>
    (simp only [pyMaxKey, List.foldl, catIdx] at *; split_ifs <;> simp only [catIdx] <;> omega)

/-- Sorting the five score values does not change how many there are. -/
theorem sortLen (f : Category → ℤ) :
    (List.insertionSort (· ≥ ·) (CATEGORIES.map f)).length = 5 := by
  rw [List.Perm.length_eq (List.perm_insertionSort _ _)]
  simp [CATEGORIES]

/-- The confidence field of a built result, with the always-true
`len(sorted_scores) > 1` guard discharged. -/
theorem buildResult_confidence (f : Category → ℤ) :
    (buildResult f).confidence =
      pyRound1 (min 100 (50 +
        (((List.insertionSort (· ≥ ·) (CATEGORIES.map f)).getD 0 0 -
          (List.insertionSort (· ≥ ·) (CATEGORIES.map f)).getD 1 0 : ℤ) : ℚ) / 50 * 50)) := by
  have hlen : 1 < (List.insertionSort (· ≥ ·) (CATEGORIES.map f)).length := by
    rw [sortLen]; omega
  simp only [buildResult]
  rw [if_pos hlen]

/-- `round` on ℚ is the identity on integers. -/
theorem pyRound1_intCast (n : ℤ) : pyRound1 (n : ℚ) = (n : ℚ) := by
  unfold pyRound1
  rw [show ((n : ℚ) * 10) = ((n * 10 : ℤ) : ℚ) by push_cast; ring, round_intCast]
  push_cast
  field_simp

/-- The confidence of a built result as a cast of an integer-valued
expression: the division by 50 and multiplication by 50 cancel exactly,
and rounding an integer to one decimal place is the identity. -/
theorem buildResult_confidence_int (f : Category → ℤ) :
    (buildResult f).confidence =
      ((min 100 (50 + ((List.insertionSort (· ≥ ·) (CATEGORIES.map f)).getD 0 0 -
        (List.insertionSort (· ≥ ·) (CATEGORIES.map f)).getD 1 0)) : ℤ) : ℚ) := by
  rw [buildResult_confidence]
  set a : ℤ := (List.insertionSort (· ≥ ·) (CATEGORIES.map f)).getD 0 0 with ha
  set b : ℤ := (List.insertionSort (· ≥ ·) (CATEGORIES.map f)).getD 1 0 with hb
  have hdiv : ((a - b : ℤ) : ℚ) / 50 * 50 = ((a - b : ℤ) : ℚ) := by field_simp
  rw [hdiv, show (50 : ℚ) + ((a - b : ℤ) : ℚ) = ((50 + (a - b) : ℤ) : ℚ) by push_cast; ring,
    show min (100 : ℚ) ((50 + (a - b) : ℤ) : ℚ) = ((min 100 (50 + (a - b)) : ℤ) : ℚ) by
      rw [show (100 : ℚ) = ((100 : ℤ) : ℚ) by norm_num]
      exact_mod_cast (Int.cast_min).symm,
    pyRound1_intCast]

/-- In the descending-sorted list of score values, the first entry is at
least the second. -/
theorem sorted_head_ge (f : Category → ℤ) :
    (List.insertionSort (· ≥ ·) (CATEGORIES.map f)).getD 1 0 ≤
      (List.insertionSort (· ≥ ·) (CATEGORIES.map f)).getD 0 0 := by
  have hsorted : List.Sorted (· ≥ ·) (List.insertionSort (· ≥ ·) (CATEGORIES.map f)) :=
    List.sorted_insertionSort _ _
  have hlen := sortLen f
  rcases hl : List.insertionSort (· ≥ ·) (CATEGORIES.map f) with _ | ⟨a, _ | ⟨b, t⟩⟩
  · rw [hl] at hlen; simp at hlen
  · rw [hl] at hlen; simp at hlen
  · rw [hl] at hsorted
    have := List.rel_of_sorted_cons hsorted b (List.mem_cons_self b t)
    simpa using this

/-- The implementation's confidence coincides with the specification's
formula applied to the score values of the produced score dict. -/
theorem confidence_formula_core (f : Category → ℤ) :
    (buildResult f).confidence = specConfidence ((buildResult f).scores.map Prod.snd) := by
  have hs : (buildResult f).scores.map Prod.snd = CATEGORIES.map f := by
    simp [buildResult, List.map_map]
  rw [hs, buildResult_confidence, specConfidence]

/-- The confidence of any built result lies between 50 and 100. -/
theorem confidence_bounds_core (f : Category → ℤ) :
    50 ≤ (buildResult f).confidence ∧ (buildResult f).confidence ≤ 100 := by
  rw [buildResult_confidence_int]
  have hab := sorted_head_ge f
  set a : ℤ := (List.insertionSort (· ≥ ·) (CATEGORIES.map f)).getD 0 0 with ha
  set b : ℤ := (List.insertionSort (· ≥ ·) (CATEGORIES.map f)).getD 1 0 with hb
  constructor
  · exact_mod_cast (by omega : (50 : ℤ) ≤ min 100 (50 + (a - b)))
  · exact_mod_cast (by omega : min 100 (50 + (a - b)) ≤ (100 : ℤ))

/-- Two results are equal when all four fields agree. -/
theorem AssessResult.eq_of_parts {r s : AssessResult}
    (h1 : r.domain = s.domain) (h2 : r.full_name = s.full_name)
    (h3 : r.scores = s.scores) (h4 : r.confidence = s.confidence) : r = s := by
  cases r; cases s
  simp only at h1 h2 h3 h4
  rw [h1, h2, h3, h4]

/-- Evaluation scheme for a concrete successful call. -/
theorem gcd_runs_to (X : List String) (R : AssessResult)
    (hval : ∀ s ∈ X, validChoice s = true) (hlen : X.length = 10)
    (hres : ∀ f, processResponses X 1 (fun _ => 0) = Except.ok f → buildResult f = R) :
    get_cyber_domain X = Except.ok R := by
  obtain ⟨f, hf⟩ := process_ok_of_valid X 1 (fun _ => 0) hval
  unfold get_cyber_domain
  rw [if_neg (by omega), hf]
  show Except.ok (buildResult f) = Except.ok R
  rw [hres f hf]

/-- Concrete run: ten times B. -/
theorem run_allB : get_cyber_domain (List.replicate 10 "B") = Except.ok resB := by
  refine gcd_runs_to _ _ (by decide) (by decide) ?_
  intro f hf
  injection hf with hf'
  subst hf'
  refine AssessResult.eq_of_parts ?_ ?_ ?_ ?_
  · decide
  · decide
  · decide
  · rw [buildResult_confidence_int]
    show _ = (60 : ℚ)
    norm_cast

/-- Concrete run: ten times C. -/
theorem run_allC : get_cyber_domain (List.replicate 10 "C") = Except.ok resC := by
  refine gcd_runs_to _ _ (by decide) (by decide) ?_
  intro f hf
  injection hf with hf'
  subst hf'
  refine AssessResult.eq_of_parts ?_ ?_ ?_ ?_
  · decide
  · decide
  · decide
  · rw [buildResult_confidence_int]
    show _ = (60 : ℚ)
    norm_cast

/-- Concrete run: ten times D. -/
theorem run_allD : get_cyber_domain (List.replicate 10 "D") = Except.ok resD := by
  refine gcd_runs_to _ _ (by decide) (by decide) ?_
  intro f hf
  injection hf with hf'
  subst hf'
  refine AssessResult.eq_of_parts ?_ ?_ ?_ ?_
  · decide
  · decide
  · decide
  · rw [buildResult_confidence_int]
    show _ = (78 : ℚ)
    norm_cast

/-- Concrete run: the tied input. -/
theorem run_tie : get_cyber_domain tieInput = Except.ok tieRes := by
  refine gcd_runs_to _ _ (by decide) (by decide) ?_
  intro f hf
  injection hf with hf'
  subst hf'
  refine AssessResult.eq_of_parts ?_ ?_ ?_ ?_
  · decide
  · decide
  · decide
  · rw [buildResult_confidence_int]
    show _ = (50 : ℚ)
    norm_cast

/-- Normalization is idempotent on responses that survive validation. -/
theorem pyNormalize_of_valid {s : String} (h : validChoice s = true) :
    pyNormalize (pyNormalize s) = pyNormalize s := by
  unfold validChoice choiceOf? at h
  split_ifs at h with h1 h2 h3 h4
  · rw [h1]; decide
  · rw [h2]; decide
  · rw [h3]; decide
  · rw [h4]; decide
  · simp at h

/-- On all-valid input the scoring loop is unchanged by pre-normalizing
every response. -/
theorem process_map_normalize :
    ∀ (l : List String) (q : Nat) (f), (∀ s ∈ l, validChoice s = true) →
      processResponses (l.map pyNormalize) q f = processResponses l q f := by
  intro l
  induction l with
  | nil => intro q f _; rfl
  | cons a rest ih =>
    intro q f hall
    have ha : validChoice a = true := hall a (List.mem_cons_self a rest)
    have hnn := pyNormalize_of_valid ha
    show processResponses (pyNormalize a :: rest.map pyNormalize) q f = _
    unfold processResponses
    simp only [hnn]
    rcases hmatch : choiceOf? (pyNormalize a) with _ | ch
    · rfl
    · exact ih (q + 1) (applyAnswer q ch f) (fun s hs => hall s (List.mem_cons_of_mem a hs))

/-- C1: for every valid 10-letter input on which two or more categories
share the maximum accumulated score, `get_cyber_domain` returns as
primary domain the tied category that comes first in the fixed
declaration order Red Team, Blue Team, AppSec, GRC, Cloud Security: the
returned domain attains the maximum score, and no category attaining the
maximum precedes it in declaration order. -/
theorem tie_break_first_in_order (responses : List String) (r : AssessResult)
    (h : get_cyber_domain responses = Except.ok r)
    (c₁ c₂ : Category) (hne : c₁ ≠ c₂)
    (h₁ : ∀ c, scoreAt r c ≤ scoreAt r c₁)
    (h₂ : ∀ c, scoreAt r c ≤ scoreAt r c₂) :
    (∀ c, scoreAt r c ≤ scoreAt r r.domain) ∧
      ∀ c, (∀ c', scoreAt r c' ≤ scoreAt r c) → catIdx r.domain ≤ catIdx c := by
  obtain ⟨-, f, -, rfl⟩ := gcd_ok_inv h
  constructor
  · intro c
    rw [scoreAt_buildResult, scoreAt_buildResult]
    exact pyMaxKey_le f c
  · intro c hc
    have hmax : ∀ c', f c' ≤ f c := fun c' => by
      have := hc c'
      rwa [scoreAt_buildResult, scoreAt_buildResult] at this
    exact pyMaxKey_first f c hmax

theorem tie_break_first_in_order_witness :
    (∀ c, scoreAt tieRes c ≤ scoreAt tieRes tieRes.domain) ∧
      ∀ c, (∀ c', scoreAt tieRes c' ≤ scoreAt tieRes c) → catIdx tieRes.domain ≤ catIdx c :=
  tie_break_first_in_order tieInput tieRes run_tie Category.redTeam Category.appSec
    (by decide) (by decide) (by decide)

/-- C2: `get_cyber_domain` fails if and only if the input length differs
from 10 or some element, after uppercasing and trimming, is not one of
the four letters; the length error reports expected 10 and the actual
count, and the letter error carries a 1-indexed question number in 1..10
and the normalized invalid token of the element at that question. -/
theorem validation_spec (responses : List String) :
    ((∃ e, get_cyber_domain responses = Except.error e) ↔
      responses.length ≠ 10 ∨ ∃ s ∈ responses, validChoice s = false) ∧
    (responses.length ≠ 10 →
      get_cyber_domain responses = Except.error (.wrongLength 10 responses.length)) ∧
    (∀ tok q, get_cyber_domain responses = Except.error (.invalidAnswer tok q) →
      1 ≤ q ∧ q ≤ 10 ∧ ∃ s, responses.get? (q - 1) = some s ∧
        tok = pyNormalize s ∧ validChoice s = false) := by
  refine ⟨⟨?_, ?_⟩, gcd_length_error responses, ?_⟩
  · rintro ⟨e, he⟩
    by_cases hl : responses.length = 10
    · right
      unfold get_cyber_domain at he
      rw [if_neg (by omega)] at he
      rcases hp : processResponses responses 1 (fun _ => 0) with e' | f
      · obtain ⟨i, s, hget, hval, -, -⟩ := process_error_inv hp
        exact ⟨s, List.get?_mem hget, hval⟩
      · rw [hp] at he; simp at he
    · left; exact hl
  · rintro (hl | ⟨s, hs, hval⟩)
    · exact ⟨_, gcd_length_error responses hl⟩
    · by_cases hl : responses.length = 10
      · rcases hp : processResponses responses 1 (fun _ => 0) with e' | f
        · refine ⟨e', ?_⟩
          unfold get_cyber_domain
          rw [if_neg (by omega), hp]
        · exact absurd (process_ok_all_valid hp s hs) (by simp [hval])
      · exact ⟨_, gcd_length_error responses hl⟩
  · intro tok q he
    by_cases hl : responses.length = 10
    · unfold get_cyber_domain at he
      rw [if_neg (by omega)] at he
      rcases hp : processResponses responses 1 (fun _ => 0) with e' | f
      · rw [hp] at he
        simp only [Except.error.injEq] at he
        subst he
        obtain ⟨i, s, hget, hval, heq, -⟩ := process_error_inv hp
        injection heq with htok hq
        have hlt : i < responses.length := by
          by_contra hge
          rw [List.get?_eq_none.mpr (by omega)] at hget
          exact absurd hget (by simp)
        refine ⟨by omega, by omega, s, ?_, htok, hval⟩
        rw [show q - 1 = i by omega]
        exact hget
      · rw [hp] at he; simp at he
    · rw [gcd_length_error responses hl] at he
      simp at he

theorem validation_spec_witness :
    get_cyber_domain (List.replicate 9 "A") = Except.error (AssessError.wrongLength 10 9) :=
  (validation_spec (List.replicate 9 "A")).2.1 (by decide)

/-- C3: for every valid 10-letter input the confidence returned by
`get_cyber_domain` equals the specification formula min(100, 50 + gap
divided by 50 times 50) rounded to one decimal place, where the gap is
the difference between the largest and second-largest of the five
accumulated category scores sorted descending. -/
theorem confidence_matches_spec_formula (responses : List String) (r : AssessResult)
    (h : get_cyber_domain responses = Except.ok r) :
    r.confidence = specConfidence (r.scores.map Prod.snd) := by
  obtain ⟨-, f, -, rfl⟩ := gcd_ok_inv h
  exact confidence_formula_core f

theorem confidence_matches_spec_formula_witness :
    resB.confidence = specConfidence (resB.scores.map Prod.snd) :=
  confidence_matches_spec_formula (List.replicate 10 "B") resB run_allB

/-- C4 counterexample: on ten times A the accumulated Red Team score is
not 40 as claimed (it is 42). -/
theorem all_a_scores_counterexample :
    (get_cyber_domain (List.replicate 10 "A")).map (fun r => scoreAt r Category.redTeam) ≠
      Except.ok 40 := by
  decide

/-- C4 amended: `get_cyber_domain` on ten times A succeeds with the score
vector Red Team 42, Blue Team 18, AppSec 31, GRC 3, Cloud Security 21
(the per-category column sums of the A rows over questions 1..10), with
primary domain Red Team and full name Red Team (Offensive). -/
theorem all_a_scores_amended :
    (get_cyber_domain (List.replicate 10 "A")).map
      (fun r => (r.domain, r.full_name, r.scores)) =
    Except.ok (Category.redTeam, "Red Team (Offensive)",
      [(Category.redTeam, 42), (Category.blueTeam, 18), (Category.appSec, 31),
       (Category.grc, 3), (Category.cloudSecurity, 21)]) := by
  decide

/-- C5 counterexample: on ten times D the returned confidence is not
100 as claimed (it is 78, since the gap between GRC at 45 and Blue Team
at 17 is 28). -/
theorem all_d_confidence_counterexample :
    (get_cyber_domain (List.replicate 10 "D")).map (fun r => r.confidence) ≠
      Except.ok 100 := by
  rw [run_allD]
  intro h
  simp only [Except.map, Except.ok.injEq] at h
  exact absurd h (by decide)

/-- C5 amended: `get_cyber_domain` on ten times D succeeds and selects
GRC as primary with accumulated score 45 (questions 3 and 4 assign GRC
only 2 and 3 points for D, the other eight assign 5), and the returned
confidence is 78, not 100. -/
theorem all_d_result_amended :
    (get_cyber_domain (List.replicate 10 "D")).map
      (fun r => (r.domain, scoreAt r Category.grc, r.confidence)) =
    Except.ok (Category.grc, 45, 78) := by
  rw [run_allD]
  rfl

/-- C6: for every valid 10-letter input the confidence returned by
`get_cyber_domain` lies in the closed interval from 50 to 100: the gap
between the top two sorted scores is non-negative, and the min clamp
caps the upper end. -/
theorem confidence_in_range (responses : List String) (r : AssessResult)
    (h : get_cyber_domain responses = Except.ok r) :
    50 ≤ r.confidence ∧ r.confidence ≤ 100 := by
  obtain ⟨-, f, -, rfl⟩ := gcd_ok_inv h
  exact confidence_bounds_core f

theorem confidence_in_range_witness :
    50 ≤ resC.confidence ∧ resC.confidence ≤ 100 :=
  confidence_in_range (List.replicate 10 "C") resC run_allC

/-- C7: on any sequence of 10 strings whose elements normalize to valid
letters, `get_cyber_domain` returns exactly the same result as on the
corresponding sequence of already-normalized letters. -/
theorem normalization_invariance (responses : List String)
    (hlen : responses.length = 10)
    (hval : ∀ s ∈ responses, validChoice s = true) :
    get_cyber_domain responses = get_cyber_domain (responses.map pyNormalize) := by
  have hp := process_map_normalize responses 1 (fun _ => 0) hval
  unfold get_cyber_domain
  rw [List.length_map, hp]

theorem normalization_invariance_witness :
    get_cyber_domain mixedInput = get_cyber_domain (mixedInput.map pyNormalize) :=
  normalization_invariance mixedInput (by decide) (by decide)

/-- C8: the scoring matrix has an entry for every question 1..10, and
every entry maps each answer letter and each category to an integer
between 0 and 5 inclusive. -/
theorem scoring_matrix_complete_bounded (q : Nat) (h1 : 1 ≤ q) (h2 : q ≤ 10) :
    ∃ row, SCORING_MATRIX q = some row ∧
      ∀ ch c, 0 ≤ row ch c ∧ row ch c ≤ 5 := by
  interval_cases q <;> exact ⟨_, rfl, by decide⟩

theorem scoring_matrix_complete_bounded_witness :
    ∃ row, SCORING_MATRIX 5 = some row ∧
      ∀ ch c, 0 ≤ row ch c ∧ row ch c ≤ 5 :=
  scoring_matrix_complete_bounded 5 (by decide) (by decide)

/-- C9: every successful result carries a score vector whose keys are
exactly the five categories in declaration order, and its full name is
the display name that `CATEGORY_NAMES` assigns to its primary domain. -/
theorem result_shape (responses : List String) (r : AssessResult)
    (h : get_cyber_domain responses = Except.ok r) :
    r.scores.map Prod.fst = CATEGORIES ∧ r.full_name = CATEGORY_NAMES r.domain := by
  obtain ⟨-, f, -, rfl⟩ := gcd_ok_inv h
  exact ⟨rfl, rfl⟩

theorem result_shape_witness :
    resC.scores.map Prod.fst = CATEGORIES ∧ resC.full_name = CATEGORY_NAMES resC.domain :=
  result_shape (List.replicate 10 "C") resC run_allC

/-- C10: the length check runs before any letter check, so wrong-length
input always gets the length error; on a length-10 input that fails the
letter check, the reported question is the first (smallest 1-indexed)
position holding an invalid element, and the quoted token is the
normalized form of that element. -/
theorem error_reporting_order (responses : List String) :
    (responses.length ≠ 10 →
      get_cyber_domain responses = Except.error (.wrongLength 10 responses.length)) ∧
    ∀ tok q, responses.length = 10 →
      get_cyber_domain responses = Except.error (.invalidAnswer tok q) →
      (∃ s, responses.get? (q - 1) = some s ∧ validChoice s = false ∧ tok = pyNormalize s) ∧
        ∀ k, k < q - 1 → ∀ s', responses.get? k = some s' → validChoice s' = true := by
  refine ⟨gcd_length_error responses, ?_⟩
  intro tok q hl he
  unfold get_cyber_domain at he
  rw [if_neg (by omega)] at he
  rcases hp : processResponses responses 1 (fun _ => 0) with e' | f
  · rw [hp] at he
    simp only [Except.error.injEq] at he
    subst he
    obtain ⟨i, s, hget, hval, heq, hbefore⟩ := process_error_inv hp
    injection heq with htok hq
    constructor
    · refine ⟨s, ?_, hval, htok⟩
      rw [show q - 1 = i by omega]
      exact hget
    · intro k hk s' hs'
      exact hbefore k (by omega) s' hs'
  · rw [hp] at he
    simp at he

theorem error_reporting_order_witness :
    (∃ s, invalidAtFive.get? (5 - 1) = some s ∧ validChoice s = false ∧ "E" = pyNormalize s) ∧
      ∀ k, k < 5 - 1 → ∀ s', invalidAtFive.get? k = some s' → validChoice s' = true :=
  (error_reporting_order invalidAtFive).2 "E" 5 (by decide) (by decide)
